import Mathlib

/-!
Verification of the cruise-ship data extractor (get-ships.js, libs/ody.js and the
media downloader scripts) against its natural-language specification.

The JavaScript sources are shallowly embedded: JavaScript/JSON values become the
inductive type JsVal, JSON.stringify becomes an executable serializer, the
network and the filesystem become explicit oracles passed as parameters, and the
stateful batch loops become state-passing recursion.  Concurrency note: within a
batch the JS event loop interleaves the workers, but every state mutation a
worker performs (a counter increment, a single-line file append) is an atomic
step of the single-threaded runtime, and those steps commute; the sequential
threading below therefore yields the same final counters and the same set of
appended lines as any interleaving.
-/

/-! ## JavaScript values

JSON.parse results and the record objects built by the scripts.  The undef
constructor models the JavaScript value undefined, which getService in
libs/ody.js returns whenever its catch path runs.
-/

mutual

inductive JsVal where
  | null : JsVal
  | undef : JsVal
  | bool (b : Bool) : JsVal
  | num (n : Int) : JsVal
  | str (s : String) : JsVal
  | arr (a : JsArr) : JsVal
  | obj (o : JsObj) : JsVal

inductive JsArr where
  | nil : JsArr
  | cons (hd : JsVal) (tl : JsArr) : JsArr

inductive JsObj where
  | nil : JsObj
  | cons (key : String) (val : JsVal) (tl : JsObj) : JsObj

end

/-- JavaScript truthiness of a value, as used by the expressions
shipId && \x7bshipId\x7d and image.path && ... in the sources. -/
def jsTruthy : JsVal → Bool
  | .null => false
  | .undef => false
  | .bool b => b
  | .num n => n != 0
  | .str s => s != ""
  | .arr _ => true
  | .obj _ => true

/-- Lookup of a key in a JavaScript object literal (first binding wins). -/
def objLookup : JsObj → String → Option JsVal
  | .nil, _ => none
  | .cons k v tl, key => if k = key then some v else objLookup tl key

/-- The character for one decimal digit. -/
def digitChar (d : Nat) : Char :=
  if d = 0 then '0' else if d = 1 then '1' else if d = 2 then '2' else if d = 3 then '3'
  else if d = 4 then '4' else if d = 5 then '5' else if d = 6 then '6'
  else if d = 7 then '7' else if d = 8 then '8' else '9'

/-- Decimal digits of a natural number, written with a structural fuel
argument (the fuel n + 1 always suffices since a number has at most n + 1
digits); acc accumulates the low-order digits already produced. -/
def natToStrGo : Nat → Nat → String → String
  | 0, _, acc => acc
  | fuel + 1, n, acc =>
      if n < 10 then (digitChar n).toString ++ acc
      else natToStrGo fuel (n / 10) ((digitChar (n % 10)).toString ++ acc)

/-- Decimal digits of a natural number, the model of JavaScript
number-to-string conversion for naturals. -/
def natToStr (n : Nat) : String := natToStrGo (n + 1) n ""

/-- JavaScript number-to-string conversion for integers. -/
def intToStr : Int → String
  | .ofNat m => natToStr m
  | .negSucc m => "-" ++ natToStr (m + 1)

/-- Escaping of one character inside a JSON string literal, as JSON.stringify
performs it for the characters that occur in this development. -/
def escapeChar (c : Char) : String :=
  if c = '"' then "\\\""
  else if c = '\\' then "\\\\"
  else if c = '\n' then "\\n"
  else if c = '\r' then "\\r"
  else if c = '\t' then "\\t"
  else c.toString

/-- Escaping of a character list, character by character. -/
def escapeList : List Char → String
  | [] => ""
  | c :: cs => escapeChar c ++ escapeList cs

/-- A JSON string literal: quote, escaped contents, quote. -/
def jsStringLit (s : String) : String :=
  "\"" ++ escapeList s.data ++ "\""

/-- The model of JavaScript String.prototype.split with a one-character
separator, on the character list: a separator starts a new group, and the
list of groups always has one more group than there are separators. -/
def splitChar (sep : Char) : List Char → List (List Char)
  | [] => [[]]
  | c :: cs =>
      if c = sep then [] :: splitChar sep cs
      else
        match splitChar sep cs with
        | [] => [[c]]
        | g :: gs => (c :: g) :: gs

/-- JavaScript s.split(sep) for a one-character separator. -/
def jsSplit (sep : Char) (s : String) : List String :=
  (splitChar sep s.data).map fun g => ⟨g⟩

/-- JavaScript s.trim(): leading and trailing whitespace removed. -/
def jsTrim (s : String) : String :=
  ⟨((s.data.dropWhile Char.isWhitespace).reverse.dropWhile Char.isWhitespace).reverse⟩

/-- Whether a JavaScript value is undefined. -/
def isUndef : JsVal → Bool
  | .undef => true
  | _ => false

/-- Comma-joining of serialized array elements / object entries. -/
def joinComma : List String → String
  | [] => ""
  | [x] => x
  | x :: xs => x ++ "," ++ joinComma xs

mutual

/-- JSON.stringify on a JavaScript value.  An undefined value serializes as
null when it occurs inside an array and is skipped when it is the value of an
object entry, exactly as JSON.stringify does; the scripts never stringify a
bare undefined at top level. -/
def stringifyVal : JsVal → String
  | .null => "null"
  | .undef => "null"
  | .bool true => "true"
  | .bool false => "false"
  | .num n => intToStr n
  | .str s => jsStringLit s
  | .arr a => "[" ++ joinComma (stringifyArrParts a) ++ "]"
  | .obj o => "\x7b" ++ joinComma (stringifyObjParts o) ++ "\x7d"

/-- Serialized elements of a JavaScript array. -/
def stringifyArrParts : JsArr → List String
  | .nil => []
  | .cons v tl => stringifyVal v :: stringifyArrParts tl

/-- Serialized entries of a JavaScript object; entries whose value is
undefined are dropped, as JSON.stringify drops them. -/
def stringifyObjParts : JsObj → List String
  | .nil => []
  | .cons k v tl =>
      if isUndef v then stringifyObjParts tl
      else (jsStringLit k ++ ":" ++ stringifyVal v) :: stringifyObjParts tl

end

/-! ## The serializer emits no raw newline

These lemmas justify the "exactly one line per record" reading of the
append-only output file: a serialized record contains no newline character, so
appending it followed by a newline appends exactly one line.
-/

/-- A string is newline-free when the newline character does not occur in it. -/
def NLFree (s : String) : Prop := '\n' ∉ s.data

/-! ## libs/ody.js -/

namespace Ody

/-- The XOR obfuscation key of libs/ody.js. -/
def decryptKey : String := "KCQZBX"

/-- The UTF-16 code units of the key. -/
def keyCodes : List Nat := decryptKey.data.map Char.toNat

/-- The loop body of xor in libs/ody.js, with r the running index: each code
unit is XORed against the key code unit at position r mod key length, and
String.fromCharCode reduces the result modulo 2^16. -/
def xorFrom (r : Nat) : List Nat → List Nat
  | [] => []
  | c :: cs => ((c ^^^ keyCodes.getD (r % keyCodes.length) 0) % 65536) :: xorFrom (r + 1) cs

/-- The function xor of libs/ody.js on a JavaScript string, modelled as its
list of UTF-16 code units. -/
def xor (e : List Nat) : List Nat := xorFrom 0 e

/-- One attempt of the try-block of getService: the block either completes
with a value (the parsed decrypted JSON, or retval.data) or throws an
exception carrying an optional numeric code property. -/
inductive AttemptResult where
  | value (v : JsVal)
  | thrown (code : Option Nat)

/-- The value passed in the method position of a request.  The retry inside
the catch of getService calls getService(url, filters), so the filters array
arrives in the method position; the arr constructor records that. -/
inductive MethodArg where
  | str (s : String)
  | arr (filters : List JsVal)

/-- One request issued by getService: the argument tuple it was invoked with. -/
structure GetReq where
  url : String
  method : MethodArg
  filters : List JsVal
  decrypt : Bool

/-- What one (possibly recursive) run of getService did: the value it
returned (undef whenever a catch path ran), the requests it issued in order,
and how many times it called refreshCookies. -/
structure GetServiceRun where
  result : JsVal
  requests : List GetReq
  refreshes : Nat

/-- getService of libs/ody.js.  The outcomes list is the network oracle: the
k-th fetch attempt of this run observes the k-th entry.  On an exception with
code 401 the source refreshes the cookies and recursively calls
getService(url, filters) - the filters land in the method position, method,
filters and decrypt revert to their defaults, and the recursive result is
discarded, so the caller receives undefined; on any other exception it
returns undefined directly.  An exhausted oracle returns undefined with no
request issued (the oracle is always long enough in the theorems below). -/
def getService (url : String) (method : MethodArg) (filters : List JsVal) (decrypt : Bool) :
    List AttemptResult → GetServiceRun
  | [] => ⟨.undef, [], 0⟩
  | o :: rest =>
      let req : GetReq := ⟨url, method, filters, decrypt⟩
      match o with
      | .value v => ⟨v, [req], 0⟩
      | .thrown code =>
          if code = some 401 then
            let sub := getService url (.arr filters) [] false rest
            ⟨.undef, req :: sub.requests, 1 + sub.refreshes⟩
          else
            ⟨.undef, [req], 0⟩

/-- The request chain produced when the first attempts keep throwing 401: the
original request, then the requests of the recursive getService(url, filters)
call, whose method position holds the previous filters and whose remaining
arguments are the defaults. -/
def retryChain (u : String) (m : MethodArg) (fs : List JsVal) (d : Bool) : Nat → List GetReq
  | 0 => [⟨u, m, fs, d⟩]
  | k + 1 => ⟨u, m, fs, d⟩ :: retryChain u (.arr fs) [] false k

end Ody

/-! ## The batch windows

Both pipelines cut their work list with the same loop:
for (i = 0; i < items.length; i += c) slice(i, i + c).
-/

/-- The windows of the batch loop.  For c = 0 the JavaScript loop would never
advance; the [l] fallback keeps the definition total, and every theorem below
assumes 0 < c. -/
def chunks (c : Nat) : List α → List (List α)
  | [] => []
  | x :: xs =>
      if _h : c = 0 then [x :: xs]
      else (x :: xs).take c :: chunks c ((x :: xs).drop c)
termination_by l => l.length
decreasing_by
  simp only [List.length_drop, List.length_cons]
  omega

/-! ## get-ships.js -/

namespace GetShips

/-- The data-source constant of get-ships.js. -/
def DATA_SOURCE : String := "ody"

/-- The ship-details endpoint path constant. -/
def SHIP_DETAILS_API_PATH : String := "/nitroapi/v2/ship/GetDetails"

/-- The record literal built by createJsonlRecord: timestamp, source, type,
the conditional shipId spread - included only when shipId is truthy, which is
what ...(shipId && \x7bshipId\x7d) does - and data. -/
def jsonlRecordObj (ts : String) (type : String) (data : JsVal) (shipId : JsVal) : JsObj :=
  .cons "timestamp" (.str ts) (.cons "source" (.str DATA_SOURCE) (.cons "type" (.str type)
    (if jsTruthy shipId then .cons "shipId" shipId (.cons "data" data .nil)
     else .cons "data" data .nil)))

/-- createJsonlRecord of get-ships.js: the serialized record plus a newline.
The timestamp parameter models new Date().toISOString(). -/
def createJsonlRecord (ts : String) (type : String) (data : JsVal) (shipId : JsVal) : String :=
  stringifyVal (.obj (jsonlRecordObj ts type data shipId)) ++ "\n"

/-- One entry of the master ship list; only its id is used by the pipeline. -/
structure Ship where
  id : Int

/-- The URL built by fetchShipDetails. -/
def shipDetailsUrl (baseUrl : String) (shipId : Int) : String :=
  baseUrl ++ SHIP_DETAILS_API_PATH ++ "/" ++ intToStr shipId ++ "?requestSource=1"

/-- fetchShipDetails of get-ships.js: getService(url, "get", [], true). -/
def fetchShipDetails (baseUrl : String) (shipId : Int) (attempts : List Ody.AttemptResult) :
    Ody.GetServiceRun :=
  Ody.getService (shipDetailsUrl baseUrl shipId) (.str "get") [] true attempts

/-- The per-ship environment: what the world does when processShip runs for
this ship.  cookieFailure models getCookies/refreshCookies throwing before
the try-block of getService, the only way getService itself throws; attempts
is the network oracle for the getService run; appendFailure models
fs.appendFileSync throwing, in which case nothing is written; ts models the
new Date().toISOString() value of the record. -/
structure ShipEnv where
  cookieFailure : Option String
  attempts : List Ody.AttemptResult
  appendFailure : Option String
  ts : String

/-- The per-item result object of processShip. -/
structure ShipResult where
  success : Bool
  shipId : Int
  error : Option String
deriving DecidableEq

/-- The mutable state processShip touches: the ships.jsonl contents, as the
list of appended strings, and the two counters of the counters object. -/
structure FetchState where
  file : List String
  processed : Nat
  failed : Nat
deriving DecidableEq

/-- processShip of get-ships.js.  On the success path it creates the record,
appends it, bumps counters.processed and returns a success result; an
exception anywhere in the try - cookie acquisition, or the append itself -
lands in the catch, which bumps counters.failed and returns a failed result
carrying the message.  A failed network attempt does NOT reach the catch:
getService swallows it and returns undefined, so the success path runs. -/
def processShip (env : ShipEnv) (baseUrl : String) (ship : Ship) (st : FetchState) :
    ShipResult × FetchState :=
  match env.cookieFailure with
  | some msg => (⟨false, ship.id, some msg⟩, { st with failed := st.failed + 1 })
  | none =>
      let run := fetchShipDetails baseUrl ship.id env.attempts
      let jsonLine := createJsonlRecord env.ts "ship" run.result (.num ship.id)
      match env.appendFailure with
      | some msg => (⟨false, ship.id, some msg⟩, { st with failed := st.failed + 1 })
      | none =>
          (⟨true, ship.id, none⟩,
           { st with file := st.file ++ [jsonLine], processed := st.processed + 1 })

/-- One window: Promise.all over batch.map(ship => processShip(...)),
sequentialized per the concurrency note at the top of the file. -/
def runShipBatch (env : Ship → ShipEnv) (baseUrl : String) :
    List Ship → FetchState → List ShipResult × FetchState
  | [], st => ([], st)
  | s :: rest, st =>
      let p := processShip (env s) baseUrl s st
      let q := runShipBatch env baseUrl rest p.2
      (p.1 :: q.1, q.2)

/-- The window loop of processShipsInBatches: each window settles completely
before the next one starts. -/
def runShipBatches (env : Ship → ShipEnv) (baseUrl : String) :
    List (List Ship) → FetchState → List ShipResult × FetchState
  | [], st => ([], st)
  | b :: bs, st =>
      let p := runShipBatch env baseUrl b st
      let q := runShipBatches env baseUrl bs p.2
      (p.1 ++ q.1, q.2)

/-- processShipsInBatches of get-ships.js: counters start at zero, the ships
list is cut into windows of maxThreads, and the windows run in order.  The
ships-file contents are threaded explicitly; the elapsed-time field is not
modelled (wall-clock time). -/
def processShipsInBatches (env : Ship → ShipEnv) (baseUrl : String) (ships : List Ship)
    (maxThreads : Nat) (file0 : List String) : List ShipResult × FetchState :=
  runShipBatches env baseUrl (chunks maxThreads ships) ⟨file0, 0, 0⟩

/-- Step 2 of main in get-ships.js: fs.unlinkSync on the ships file when it
exists.  An absent file and an empty one are both modelled as []; the first
append recreates the file. -/
def clearShipsFile (_oldFile : List String) : List String := []

/-- Steps 2-3 of main: clear the ships file, then run the batch executor. -/
def fetchMain (env : Ship → ShipEnv) (baseUrl : String) (ships : List Ship)
    (maxThreads : Nat) (oldFile : List String) : List ShipResult × FetchState :=
  processShipsInBatches env baseUrl ships maxThreads (clearShipsFile oldFile)

/-- The per-item result of processShip; it does not depend on the shared
state (proved below). -/
def shipWorkerResult (env : ShipEnv) (baseUrl : String) (ship : Ship) : ShipResult :=
  (processShip env baseUrl ship ⟨[], 0, 0⟩).1

/-- Whether processShip takes its success path in this environment. -/
def shipSucceeds (env : ShipEnv) : Bool :=
  env.cookieFailure.isNone && env.appendFailure.isNone

/-- The record line a successful processShip appends for this ship. -/
def shipLine (env : ShipEnv) (baseUrl : String) (ship : Ship) : String :=
  createJsonlRecord env.ts "ship" (fetchShipDetails baseUrl ship.id env.attempts).result
    (.num ship.id)

/-- The lines one run appends: one per ship whose worker takes the success
path, in processing order. -/
def successLines (env : Ship → ShipEnv) (baseUrl : String) (ships : List Ship) : List String :=
  ships.filterMap fun s =>
    if shipSucceeds (env s) then some (shipLine (env s) baseUrl s) else none

end GetShips

/-! ## download-media.js (src/unnamed/part_001) and its earlier revision
(src/unnamed/part_000) -/

namespace DlMedia

/-- The gallery filter constant of download-media.js. -/
def GALLERY_IMAGE_TYPE : String := "Gallery"

/-- Whether a JavaScript value is null (the filter ship !== null). -/
def jsIsNull : JsVal → Bool
  | .null => true
  | _ => false

/-- The model of the JavaScript a || b fallback on strings: b is used when a
is undefined or the empty string. -/
def jsOrStr (a : Option String) (b : String) : String :=
  match a with
  | some s => if s = "" then b else s
  | none => b

/-- The model of path.basename: the part after the last slash. -/
def basename (p : String) : String :=
  (jsSplit '/' p).getLastD p

/-- The model of path.join on two components. -/
def joinPath (a b : String) : String := a ++ "/" ++ b

/-- One image entry of a ship record; a missing path is modelled as the empty
string (both are falsy in the filter image.path && ...). -/
structure ShipImage where
  path : String
  imageType : String
deriving DecidableEq

/-- The inner ship.data.data object: name and images, either possibly
undefined. -/
structure ShipInner where
  name : Option String
  images : Option (List ShipImage)
deriving DecidableEq

/-- One parsed line of ships.jsonl as the downloader uses it; inner models
the optional chain ship.data?.data (none when either level is missing). -/
structure ShipRec where
  shipId : Int
  inner : Option ShipInner
deriving DecidableEq

/-- One download task object pushed by collectDownloadTasks. -/
structure DownloadTask where
  url : String
  filepath : String
  shipId : Int
  shipName : String
  filename : String
deriving DecidableEq

/-- ship.data?.data?.images || []. -/
def shipImages (ship : ShipRec) : List ShipImage :=
  (ship.inner.bind ShipInner.images).getD []

/-- ship.data?.data?.name || `Ship (shipId)`. -/
def shipName (ship : ShipRec) : String :=
  jsOrStr (ship.inner.bind ShipInner.name) ("Ship " ++ intToStr ship.shipId)

/-- The gallery filter of collectDownloadTasks:
img.path && img.imageType === "Gallery". -/
def shipGalleryImages (ship : ShipRec) : List ShipImage :=
  (shipImages ship).filter fun img => img.path != "" && img.imageType == GALLERY_IMAGE_TYPE

/-- The task object built for one gallery image:
url = baseUrl + image.path, filepath = mediaDir/shipId/basename(image.path). -/
def taskOf (baseUrl mediaDir : String) (ship : ShipRec) (img : ShipImage) : DownloadTask :=
  let filename := basename img.path
  { url := baseUrl ++ img.path
    filepath := joinPath (joinPath mediaDir (intToStr ship.shipId)) filename
    shipId := ship.shipId
    shipName := shipName ship
    filename := filename }

/-- collectDownloadTasks of download-media.js.  fexists is the filesystem
oracle for fs.existsSync; a task whose filepath already exists is skipped
(resume capability), every other gallery image becomes a task, in ship order
then image order. -/
def collectDownloadTasks (fexists : String → Bool) (ships : List ShipRec)
    (baseUrl mediaDir : String) : List DownloadTask :=
  (ships.map fun ship =>
    (shipGalleryImages ship).filterMap fun img =>
      let t := taskOf baseUrl mediaDir ship img
      if fexists t.filepath then none else some t).flatten

/-- What the world does for one downloadImage call: the fetch rejects, the
response has ok = false, the directory creation or stream pipeline throws, or
everything succeeds. -/
inductive DlOutcome where
  | netError (msg : String)
  | httpError (status : Nat) (statusText : String)
  | streamError (msg : String)
  | ok

/-- The result object of downloadImage. -/
structure DlResult where
  success : Bool
  url : String
  filepath : String
  error : Option String
deriving DecidableEq

/-- downloadImage of download-media.js: every failure - rejected fetch,
non-2xx response (rethrown as HTTP status: statusText), or a filesystem or
stream error - is caught and converted into a failed result carrying the
message; nothing escapes the function. -/
def downloadImage (o : DlOutcome) (url filepath : String) : DlResult :=
  match o with
  | .netError msg => ⟨false, url, filepath, some msg⟩
  | .httpError status statusText =>
      ⟨false, url, filepath, some ("HTTP " ++ natToStr status ++ ": " ++ statusText)⟩
  | .streamError msg => ⟨false, url, filepath, some msg⟩
  | .ok => ⟨true, url, filepath, none⟩

/-- The counters object of downloadInBatches, plus a count of the fetch calls
issued (downloadImage performs exactly one fetch per invocation). -/
structure DlStats where
  completed : Nat
  failed : Nat
  requests : Nat
deriving DecidableEq

/-- One window of downloads: each task runs downloadImage once and bumps
completed or failed according to the result. -/
def runDlBatch (dlenv : DownloadTask → DlOutcome) :
    List DownloadTask → DlStats → List DlResult × DlStats
  | [], st => ([], st)
  | t :: ts, st =>
      let r := downloadImage (dlenv t) t.url t.filepath
      let st1 :=
        if r.success then
          { st with completed := st.completed + 1, requests := st.requests + 1 }
        else
          { st with failed := st.failed + 1, requests := st.requests + 1 }
      let q := runDlBatch dlenv ts st1
      (r :: q.1, q.2)

/-- The window loop of downloadInBatches. -/
def runDlBatches (dlenv : DownloadTask → DlOutcome) :
    List (List DownloadTask) → DlStats → List DlResult × DlStats
  | [], st => ([], st)
  | b :: bs, st =>
      let p := runDlBatch dlenv b st
      let q := runDlBatches dlenv bs p.2
      (p.1 ++ q.1, q.2)

/-- downloadInBatches of download-media.js: counters start at zero and the
task list is cut into windows of maxConcurrent. -/
def downloadInBatches (dlenv : DownloadTask → DlOutcome) (tasks : List DownloadTask)
    (maxConcurrent : Nat) : List DlResult × DlStats :=
  runDlBatches dlenv (chunks maxConcurrent tasks) ⟨0, 0, 0⟩

/-- Steps 2-3 of main in download-media.js: collect the tasks and, when the
list is empty, return before downloadInBatches is ever called (zero fetches);
otherwise run the batches. -/
def downloadMain (dlenv : DownloadTask → DlOutcome) (fexists : String → Bool)
    (ships : List ShipRec) (baseUrl mediaDir : String) (maxConcurrent : Nat) : DlStats :=
  match collectDownloadTasks fexists ships baseUrl mediaDir with
  | [] => ⟨0, 0, 0⟩
  | t :: ts => (downloadInBatches dlenv (t :: ts) maxConcurrent).2

/-- loadShipsData of download-media.js.  jsonParse is the JSON.parse oracle:
ok is a parsed value, error a thrown parse exception.  The per-line catch
turns a throwing line into null (after a console.warn), and the final filter
removes the nulls. -/
def loadShipsData (jsonParse : String → Except String JsVal) (content : String) : List JsVal :=
  ((jsSplit '\n' (jsTrim content)).map fun line =>
      match jsonParse line with
      | .ok v => v
      | .error _ => JsVal.null).filter fun v => !jsIsNull v

end DlMedia

namespace PartZero

/-- The load step of processShips in src/unnamed/part_000, lines 53-54:
fileContent.trim().split("\n").map(line => JSON.parse(line)) with no per-line
guard, so the first line whose parse throws aborts the whole load. -/
def processShipsParseStep (jsonParse : String → Except String JsVal) (content : String) :
    Except String (List JsVal) :=
  (jsSplit '\n' (jsTrim content)).mapM jsonParse

end PartZero

/-! ## Witness fixtures for the claim section -/

/-- Fixture for the C5 instance: one ship with three gallery images A, B, C. -/
def witC5Ship : DlMedia.ShipRec :=
  ⟨1, some ⟨some "S", some [⟨"/img/A.jpg", "Gallery"⟩, ⟨"/img/B.jpg", "Gallery"⟩,
    ⟨"/img/C.jpg", "Gallery"⟩]⟩⟩

/-- Fixture for the C5 instance: the files for A and C already exist. -/
def witC5Exists : String → Bool := fun p => p == "M/1/A.jpg" || p == "M/1/C.jpg"

/-- Fixture for the C6 witness: one ship with one gallery image. -/
def witC6Ship : DlMedia.ShipRec :=
  ⟨1, some ⟨some "S", some [⟨"/img/A.jpg", "Gallery"⟩]⟩⟩

/-- Fixture for the C6 witness: after the first run the image file exists. -/
def witC6Exists : String → Bool := fun p => p == "M/1/A.jpg"

/-- Fixture for C8: a JSON.parse oracle that parses the line of an empty
object, parses the literal null line to the null value (as JSON.parse does),
and throws on anything else. -/
def witC8Parse : String → Except String JsVal := fun l =>
  if l = "\x7b\x7d" then .ok (.obj .nil)
  else if l = "null" then .ok .null
  else .error "Unexpected token"

/-- Fixture for C2: a ship whose fetch attempt throws a network error (an
exception with no numeric code property), e.g. a socket failure or a body
that fails to parse. -/
def witC2Env : GetShips.ShipEnv := ⟨none, [.thrown none], none, "T"⟩

/-- Fixture for the C9 witness: a ship whose fetch succeeds with payload 3. -/
def witC9Env : GetShips.ShipEnv := ⟨none, [.value (.num 3)], none, "T"⟩

/-- Fixture for the C1 witness: ship 2 fails (the append throws), ships 1
and 3 succeed. -/
def witC1Env : GetShips.Ship → GetShips.ShipEnv := fun s =>
  if s.id = 2 then ⟨none, [.thrown none], some "disk full", "T2"⟩
  else ⟨none, [.value (.num 9)], none, "T"⟩

/-- Fixture for the C1 witness: three ships. -/
def witC1Ships : List GetShips.Ship := [⟨1⟩, ⟨2⟩, ⟨3⟩]

/-- Fixture for the C1 witness: two download tasks. -/
def witC1Tasks : List DlMedia.DownloadTask :=
  [⟨"u1", "p1", 1, "n1", "f1"⟩, ⟨"u2", "p2", 2, "n2", "f2"⟩]

/-- Fixture for the C1 witness: the second download gets a 404. -/
def witC1Dlenv : DlMedia.DownloadTask → DlMedia.DlOutcome := fun t =>
  if t.filepath == "p2" then .httpError 404 "Not Found" else .ok

/-- Fixture for the C4 witness: every fetch succeeds. -/
def witC4Env : GetShips.Ship → GetShips.ShipEnv := fun _ => ⟨none, [.value .null], none, "T"⟩

/-- Fixture for the C4 witness: five ships, windows of two. -/
def witC4Ships : List GetShips.Ship := [⟨1⟩, ⟨2⟩, ⟨3⟩, ⟨4⟩, ⟨5⟩]

/-- Fixture for the C7 witness: ship 1 succeeds, ship 2 fails during cookie
acquisition. -/
def witC7Env : GetShips.Ship → GetShips.ShipEnv := fun s =>
  if s.id = 1 then ⟨none, [.value (.num 4)], none, "T1"⟩
  else ⟨some "browser crashed", [], none, "T2"⟩

/-! ## Newline-freedom lemmas for the serializer -/

theorem nlFree_append {a b : String} (ha : NLFree a) (hb : NLFree b) :
    NLFree (a ++ b) := by
  simp only [NLFree, String.data_append, List.mem_append] at *
  intro h
  rcases h with h | h
  · exact ha h
  · exact hb h

theorem nlFree_toString {c : Char} (hc : c ≠ '\n') : NLFree c.toString := by
  simp only [NLFree]
  intro h
  have : c.toString.data = [c] := rfl
  rw [this] at h
  simp only [List.mem_singleton] at h
  exact hc h.symm

theorem digitChar_ne_nl (d : Nat) : digitChar d ≠ '\n' := by
  unfold digitChar
  repeat' split
  all_goals decide

theorem nlFree_natToStrGo :
    ∀ (fuel n : Nat) (acc : String), NLFree acc → NLFree (natToStrGo fuel n acc)
  | 0, _, _, h => h
  | fuel + 1, n, acc, h => by
      rw [natToStrGo]
      split
      · exact nlFree_append (nlFree_toString (digitChar_ne_nl n)) h
      · exact nlFree_natToStrGo fuel (n / 10) _
          (nlFree_append (nlFree_toString (digitChar_ne_nl (n % 10))) h)

theorem nlFree_natToStr (n : Nat) : NLFree (natToStr n) :=
  nlFree_natToStrGo (n + 1) n "" (by unfold NLFree; decide)

theorem nlFree_intToStr (n : Int) : NLFree (intToStr n) := by
  cases n with
  | ofNat m => exact nlFree_natToStr m
  | negSucc m =>
      refine nlFree_append ?_ (nlFree_natToStr (m + 1))
      unfold NLFree
      decide

theorem nlFree_escapeChar (c : Char) : NLFree (escapeChar c) := by
  unfold escapeChar NLFree
  repeat' split
  any_goals decide
  next _ _ h3 _ _ => exact nlFree_toString h3

theorem nlFree_escapeList : ∀ (cs : List Char), NLFree (escapeList cs)
  | [] => by unfold NLFree escapeList; decide
  | c :: cs => nlFree_append (nlFree_escapeChar c) (nlFree_escapeList cs)

theorem nlFree_jsStringLit (s : String) : NLFree (jsStringLit s) := by
  unfold jsStringLit
  refine nlFree_append (nlFree_append ?_ (nlFree_escapeList s.data)) ?_
  · unfold NLFree; decide
  · unfold NLFree; decide

theorem nlFree_joinComma : ∀ (l : List String), (∀ s ∈ l, NLFree s) → NLFree (joinComma l)
  | [], _ => by unfold NLFree joinComma; decide
  | [x], h => h x (by simp)
  | x :: y :: ys, h => by
      refine nlFree_append (nlFree_append (h x (by simp)) ?_) ?_
      · unfold NLFree; decide
      · exact nlFree_joinComma (y :: ys) (fun s hs => h s (by simp at hs ⊢; tauto))

mutual

theorem nlFree_stringifyVal : ∀ (v : JsVal), NLFree (stringifyVal v)
  | .null => by unfold NLFree; decide
  | .undef => by unfold NLFree; decide
  | .bool true => by unfold NLFree; decide
  | .bool false => by unfold NLFree; decide
  | .num n => nlFree_intToStr n
  | .str s => nlFree_jsStringLit s
  | .arr a => by
      refine nlFree_append (nlFree_append ?_ (nlFree_joinComma _ (nlFree_stringifyArrParts a))) ?_
      · unfold NLFree; decide
      · unfold NLFree; decide
  | .obj o => by
      refine nlFree_append (nlFree_append ?_ (nlFree_joinComma _ (nlFree_stringifyObjParts o))) ?_
      · unfold NLFree; decide
      · unfold NLFree; decide

theorem nlFree_stringifyArrParts : ∀ (a : JsArr), ∀ s ∈ stringifyArrParts a, NLFree s
  | .nil => by simp [stringifyArrParts]
  | .cons v tl => by
      intro s hs
      rcases List.mem_cons.mp hs with h | h
      · rw [h]; exact nlFree_stringifyVal v
      · exact nlFree_stringifyArrParts tl s h

theorem nlFree_stringifyObjParts : ∀ (o : JsObj), ∀ s ∈ stringifyObjParts o, NLFree s
  | .nil => by simp [stringifyObjParts]
  | .cons k v tl => by
      intro s hs
      rw [stringifyObjParts] at hs
      by_cases hu : isUndef v = true
      · rw [if_pos hu] at hs
        exact nlFree_stringifyObjParts tl s hs
      · rw [if_neg hu] at hs
        rcases List.mem_cons.mp hs with h | h
        · rw [h]
          exact nlFree_append (nlFree_append (nlFree_jsStringLit k) (by unfold NLFree; decide))
            (nlFree_stringifyVal v)
        · exact nlFree_stringifyObjParts tl s h

end

/-! ## Window lemmas -/

theorem chunks_nil {α : Type _} (c : Nat) : chunks c ([] : List α) = [] := by
  rw [chunks]

theorem chunks_flatten {α : Type _} (c : Nat) (hc : 0 < c) :
    ∀ (l : List α), (chunks c l).flatten = l
  | [] => by simp [chunks]
  | x :: xs => by
      rw [chunks, dif_neg (Nat.pos_iff_ne_zero.mp hc)]
      rw [List.flatten_cons, chunks_flatten c hc ((x :: xs).drop c)]
      exact List.take_append_drop c (x :: xs)
termination_by l => l.length
decreasing_by simp only [List.length_drop, List.length_cons]; omega

theorem chunks_sizes {α : Type _} (c : Nat) (hc : 0 < c) :
    ∀ (l : List α), ∀ w ∈ chunks c l, w.length ≤ c
  | [] => by simp [chunks]
  | x :: xs => by
      rw [chunks, dif_neg (Nat.pos_iff_ne_zero.mp hc)]
      intro w hw
      rcases List.mem_cons.mp hw with h | h
      · subst h
        rw [List.length_take]
        exact min_le_left _ _
      · exact chunks_sizes c hc ((x :: xs).drop c) w h
termination_by l => l.length
decreasing_by simp only [List.length_drop, List.length_cons]; omega

theorem chunks_count {α : Type _} (c : Nat) (hc : 0 < c) :
    ∀ (l : List α), (chunks c l).length = (l.length + c - 1) / c
  | [] => by
      rw [chunks]
      simp only [List.length_nil]
      rw [Nat.div_eq_of_lt (by omega)]
  | x :: xs => by
      rw [chunks, dif_neg (Nat.pos_iff_ne_zero.mp hc)]
      rw [List.length_cons, chunks_count c hc ((x :: xs).drop c)]
      simp only [List.length_drop, List.length_cons]
      rcases Nat.lt_or_ge c (xs.length + 1) with h | h
      · have e1 : xs.length + 1 - c + c - 1 = xs.length := by omega
        have e2 : xs.length + 1 + c - 1 = xs.length + c := by omega
        rw [e1, e2, Nat.add_div_right _ hc]
      · have e1 : xs.length + 1 - c = 0 := by omega
        rw [e1, Nat.div_eq_of_lt (by omega)]
        have e2 : xs.length + 1 + c - 1 = (xs.length + 1 - 1) + c := by omega
        rw [e2, Nat.add_div_right _ hc, Nat.div_eq_of_lt (by omega)]
termination_by l => l.length
decreasing_by simp only [List.length_drop, List.length_cons]; omega

/-! ## Fetch executor lemmas -/

namespace GetShips

theorem processShip_fst (env : ShipEnv) (baseUrl : String) (s : Ship) (st : FetchState) :
    (processShip env baseUrl s st).1 = shipWorkerResult env baseUrl s := by
  unfold shipWorkerResult processShip
  cases env.cookieFailure <;> cases env.appendFailure <;> rfl

theorem processShip_counters (env : ShipEnv) (baseUrl : String) (s : Ship) (st : FetchState) :
    (processShip env baseUrl s st).2.processed + (processShip env baseUrl s st).2.failed
      = st.processed + st.failed + 1 := by
  unfold processShip
  cases env.cookieFailure <;> cases env.appendFailure <;> simp <;> omega

theorem processShip_file (env : ShipEnv) (baseUrl : String) (s : Ship) (st : FetchState) :
    (processShip env baseUrl s st).2.file
      = st.file ++ (if shipSucceeds env then [shipLine env baseUrl s] else []) := by
  unfold processShip shipSucceeds shipLine
  cases env.cookieFailure <;> cases env.appendFailure <;> simp

theorem runShipBatch_results (env : Ship → ShipEnv) (baseUrl : String) :
    ∀ (b : List Ship) (st : FetchState),
      (runShipBatch env baseUrl b st).1 = b.map fun s => shipWorkerResult (env s) baseUrl s
  | [], _ => rfl
  | s :: rest, st => by
      simp only [runShipBatch, List.map_cons]
      rw [processShip_fst, runShipBatch_results env baseUrl rest]

theorem runShipBatch_counters (env : Ship → ShipEnv) (baseUrl : String) :
    ∀ (b : List Ship) (st : FetchState),
      (runShipBatch env baseUrl b st).2.processed + (runShipBatch env baseUrl b st).2.failed
        = st.processed + st.failed + b.length
  | [], _ => rfl
  | s :: rest, st => by
      simp only [runShipBatch]
      rw [runShipBatch_counters env baseUrl rest]
      rw [processShip_counters]
      simp only [List.length_cons]
      omega

theorem runShipBatch_file (env : Ship → ShipEnv) (baseUrl : String) :
    ∀ (b : List Ship) (st : FetchState),
      (runShipBatch env baseUrl b st).2.file = st.file ++ successLines env baseUrl b
  | [], st => by simp [runShipBatch, successLines]
  | s :: rest, st => by
      simp only [runShipBatch]
      rw [runShipBatch_file env baseUrl rest]
      rw [processShip_file]
      unfold successLines
      by_cases h : shipSucceeds (env s)
      · simp [h, List.filterMap_cons, List.append_assoc]
      · simp [h, List.filterMap_cons]

theorem runShipBatches_results (env : Ship → ShipEnv) (baseUrl : String) :
    ∀ (bs : List (List Ship)) (st : FetchState),
      (runShipBatches env baseUrl bs st).1
        = (bs.map fun b => b.map fun s => shipWorkerResult (env s) baseUrl s).flatten
  | [], _ => rfl
  | b :: bs, st => by
      simp only [runShipBatches, List.map_cons, List.flatten_cons]
      rw [runShipBatch_results, runShipBatches_results env baseUrl bs]

theorem runShipBatches_counters (env : Ship → ShipEnv) (baseUrl : String) :
    ∀ (bs : List (List Ship)) (st : FetchState),
      (runShipBatches env baseUrl bs st).2.processed
          + (runShipBatches env baseUrl bs st).2.failed
        = st.processed + st.failed + bs.flatten.length
  | [], _ => by simp [runShipBatches]
  | b :: bs, st => by
      simp only [runShipBatches]
      rw [runShipBatches_counters env baseUrl bs, runShipBatch_counters]
      simp only [List.flatten_cons, List.length_append]
      omega

theorem runShipBatches_file (env : Ship → ShipEnv) (baseUrl : String) :
    ∀ (bs : List (List Ship)) (st : FetchState),
      (runShipBatches env baseUrl bs st).2.file = st.file ++ successLines env baseUrl bs.flatten
  | [], st => by simp [runShipBatches, successLines]
  | b :: bs, st => by
      simp only [runShipBatches, List.flatten_cons]
      rw [runShipBatches_file env baseUrl bs, runShipBatch_file]
      unfold successLines
      rw [List.filterMap_append]
      simp [List.append_assoc]

theorem processShipsInBatches_results (env : Ship → ShipEnv) (baseUrl : String)
    (ships : List Ship) (c : Nat) (file0 : List String) (hc : 0 < c) :
    (processShipsInBatches env baseUrl ships c file0).1
      = ships.map fun s => shipWorkerResult (env s) baseUrl s := by
  unfold processShipsInBatches
  rw [runShipBatches_results, ← List.map_flatten, chunks_flatten c hc]

theorem processShipsInBatches_counters (env : Ship → ShipEnv) (baseUrl : String)
    (ships : List Ship) (c : Nat) (file0 : List String) (hc : 0 < c) :
    (processShipsInBatches env baseUrl ships c file0).2.processed
        + (processShipsInBatches env baseUrl ships c file0).2.failed
      = ships.length := by
  unfold processShipsInBatches
  rw [runShipBatches_counters, chunks_flatten c hc]
  simp

theorem processShipsInBatches_file (env : Ship → ShipEnv) (baseUrl : String)
    (ships : List Ship) (c : Nat) (file0 : List String) (hc : 0 < c) :
    (processShipsInBatches env baseUrl ships c file0).2.file
      = file0 ++ successLines env baseUrl ships := by
  unfold processShipsInBatches
  rw [runShipBatches_file, chunks_flatten c hc]

end GetShips

/-! ## Download executor lemmas -/

namespace DlMedia

theorem runDlBatch_results (dlenv : DownloadTask → DlOutcome) :
    ∀ (b : List DownloadTask) (st : DlStats),
      (runDlBatch dlenv b st).1 = b.map fun t => downloadImage (dlenv t) t.url t.filepath
  | [], _ => rfl
  | t :: ts, st => by
      simp only [runDlBatch, List.map_cons]
      rw [runDlBatch_results dlenv ts]

theorem runDlBatch_counters (dlenv : DownloadTask → DlOutcome) :
    ∀ (b : List DownloadTask) (st : DlStats),
      (runDlBatch dlenv b st).2.completed + (runDlBatch dlenv b st).2.failed
        = st.completed + st.failed + b.length
  | [], _ => rfl
  | t :: ts, st => by
      simp only [runDlBatch]
      rw [runDlBatch_counters dlenv ts]
      by_cases h : (downloadImage (dlenv t) t.url t.filepath).success
      · rw [if_pos h]
        simp only [List.length_cons]
        omega
      · rw [if_neg h]
        simp only [List.length_cons]
        omega

theorem runDlBatches_results (dlenv : DownloadTask → DlOutcome) :
    ∀ (bs : List (List DownloadTask)) (st : DlStats),
      (runDlBatches dlenv bs st).1
        = (bs.map fun b => b.map fun t => downloadImage (dlenv t) t.url t.filepath).flatten
  | [], _ => rfl
  | b :: bs, st => by
      simp only [runDlBatches, List.map_cons, List.flatten_cons]
      rw [runDlBatch_results, runDlBatches_results dlenv bs]

theorem runDlBatches_counters (dlenv : DownloadTask → DlOutcome) :
    ∀ (bs : List (List DownloadTask)) (st : DlStats),
      (runDlBatches dlenv bs st).2.completed + (runDlBatches dlenv bs st).2.failed
        = st.completed + st.failed + bs.flatten.length
  | [], _ => by simp [runDlBatches]
  | b :: bs, st => by
      simp only [runDlBatches]
      rw [runDlBatches_counters dlenv bs, runDlBatch_counters]
      simp only [List.flatten_cons, List.length_append]
      omega

theorem downloadInBatches_results (dlenv : DownloadTask → DlOutcome)
    (tasks : List DownloadTask) (c : Nat) (hc : 0 < c) :
    (downloadInBatches dlenv tasks c).1
      = tasks.map fun t => downloadImage (dlenv t) t.url t.filepath := by
  unfold downloadInBatches
  rw [runDlBatches_results, ← List.map_flatten, chunks_flatten c hc]

theorem downloadInBatches_counters (dlenv : DownloadTask → DlOutcome)
    (tasks : List DownloadTask) (c : Nat) (hc : 0 < c) :
    (downloadInBatches dlenv tasks c).2.completed + (downloadInBatches dlenv tasks c).2.failed
      = tasks.length := by
  unfold downloadInBatches
  rw [runDlBatches_counters, chunks_flatten c hc]
  simp

end DlMedia

/-! ## Resume-filter lemmas -/

namespace DlMedia

theorem filterMap_if_filter {α β : Type _} (f : α → β) (p : β → Bool) :
    ∀ (l : List α),
      (l.filterMap fun a => if p (f a) then none else some (f a))
        = (l.map f).filter fun b => !p b
  | [] => rfl
  | a :: l => by
      simp only [List.filterMap_cons, List.map_cons, List.filter_cons]
      by_cases h : p (f a)
      · simp [h, filterMap_if_filter f p l]
      · simp [h, filterMap_if_filter f p l]

theorem collect_false (ships : List ShipRec) (baseUrl mediaDir : String) :
    collectDownloadTasks (fun _ => false) ships baseUrl mediaDir
      = (ships.map fun ship =>
          (shipGalleryImages ship).map (taskOf baseUrl mediaDir ship)).flatten := by
  unfold collectDownloadTasks
  congr 1
  apply List.map_congr_left
  intro ship _
  show (shipGalleryImages ship).filterMap (some ∘ taskOf baseUrl mediaDir ship)
    = (shipGalleryImages ship).map (taskOf baseUrl mediaDir ship)
  rw [List.filterMap_eq_map]

theorem collect_eq_filter (fexists : String → Bool) (ships : List ShipRec)
    (baseUrl mediaDir : String) :
    collectDownloadTasks fexists ships baseUrl mediaDir
      = (collectDownloadTasks (fun _ => false) ships baseUrl mediaDir).filter
          fun t => !fexists t.filepath := by
  rw [collect_false, List.filter_flatten, List.map_map]
  unfold collectDownloadTasks
  congr 1
  apply List.map_congr_left
  intro ship _
  show ((shipGalleryImages ship).filterMap fun img =>
      if fexists (taskOf baseUrl mediaDir ship img).filepath then none
      else some (taskOf baseUrl mediaDir ship img))
    = ((shipGalleryImages ship).map (taskOf baseUrl mediaDir ship)).filter
        fun t => !fexists t.filepath
  exact filterMap_if_filter (taskOf baseUrl mediaDir ship)
    (fun t => fexists t.filepath) (shipGalleryImages ship)

end DlMedia

/-! ## ody.js lemmas -/

namespace Ody

theorem keyCodes_eq : keyCodes = [75, 67, 81, 90, 66, 88] := by decide

theorem keyAt_lt (i : Nat) : keyCodes.getD (i % keyCodes.length) 0 < 65536 := by
  rw [keyCodes_eq]
  have h : i % 6 < 6 := Nat.mod_lt _ (by omega)
  have hall : ∀ j, j < 6 → ([75, 67, 81, 90, 66, 88].getD j 0) < 65536 := by decide
  exact hall _ h

theorem xorFrom_xorFrom : ∀ (r : Nat) (e : List Nat), (∀ c ∈ e, c < 65536) →
    xorFrom r (xorFrom r e) = e
  | _, [], _ => rfl
  | r, c :: cs, h => by
      have hc : c < 65536 := h c (List.mem_cons_self c cs)
      have hk : keyCodes.getD (r % keyCodes.length) 0 < 65536 := keyAt_lt r
      have hxl : c ^^^ keyCodes.getD (r % keyCodes.length) 0 < 65536 := by
        have hpow : (65536 : Nat) = 2 ^ 16 := by norm_num
        rw [hpow] at hc hk ⊢
        exact Nat.xor_lt_two_pow hc hk
      simp only [xorFrom]
      rw [Nat.mod_eq_of_lt hxl, Nat.xor_cancel_right, Nat.mod_eq_of_lt hc,
        xorFrom_xorFrom (r + 1) cs (fun x hx => h x (List.mem_cons_of_mem c hx))]


theorem getService_retry_chain :
    ∀ (k : Nat) (u : String) (m : MethodArg) (fs : List JsVal) (d : Bool) (v : JsVal),
      getService u m fs d (List.replicate k (.thrown (some 401)) ++ [.value v])
        = ⟨if k = 0 then v else .undef, retryChain u m fs d k, k⟩
  | 0, u, m, fs, d, v => by
      simp [getService, retryChain]
  | k + 1, u, m, fs, d, v => by
      simp only [List.replicate_succ, List.cons_append]
      simp only [getService]
      rw [if_pos trivial, getService_retry_chain k u (.arr fs) [] false v,
        if_neg (Nat.succ_ne_zero k)]
      simp only [retryChain]
      congr 1
      omega

end Ody

/-! ## Record lemmas for the fetch output -/

namespace GetShips

theorem jsonlRecordObj_lookup_type (ts type : String) (data shipId : JsVal) :
    objLookup (jsonlRecordObj ts type data shipId) "type" = some (.str type) := by
  unfold jsonlRecordObj
  by_cases h : jsTruthy shipId <;> simp [h, objLookup]

theorem jsonlRecordObj_lookup_shipId_truthy (ts type : String) (data shipId : JsVal)
    (h : jsTruthy shipId = true) :
    objLookup (jsonlRecordObj ts type data shipId) "shipId" = some shipId := by
  unfold jsonlRecordObj
  simp [h, objLookup]

theorem jsonlRecordObj_lookup_shipId_falsy (ts type : String) (data shipId : JsVal)
    (h : jsTruthy shipId = false) :
    objLookup (jsonlRecordObj ts type data shipId) "shipId" = none := by
  unfold jsonlRecordObj
  simp [h, objLookup]

theorem createJsonlRecord_one_nl (ts type : String) (data shipId : JsVal) :
    (createJsonlRecord ts type data shipId).data.count '\n' = 1 := by
  unfold createJsonlRecord
  rw [String.data_append, List.count_append]
  rw [List.count_eq_zero.mpr (nlFree_stringifyVal _)]
  rfl

theorem shipSucceeds_true {env : ShipEnv} (hcf : env.cookieFailure = none)
    (haf : env.appendFailure = none) : shipSucceeds env = true := by
  unfold shipSucceeds
  rw [hcf, haf]
  rfl

end GetShips

/-! ## Loader lemmas -/

namespace DlMedia

theorem loadLines_spec (jsonParse : String → Except String JsVal) :
    ∀ (ls : List String),
      ((ls.map fun line =>
          match jsonParse line with
          | .ok v => v
          | .error _ => JsVal.null).filter fun v => !jsIsNull v)
        = ls.filterMap fun line =>
            match jsonParse line with
            | .ok v => if jsIsNull v then none else some v
            | .error _ => none
  | [] => rfl
  | l :: ls => by
      simp only [List.map_cons, List.filter_cons, List.filterMap_cons]
      cases hp : jsonParse l with
      | ok v =>
          cases hv : jsIsNull v
          · simp [hv, loadLines_spec jsonParse ls]
          · simp [hv, loadLines_spec jsonParse ls]
      | error e =>
          have h0 : jsIsNull JsVal.null = true := rfl
          simp [h0, loadLines_spec jsonParse ls]

end DlMedia

/-! ## Claim theorems -/

/-- C10: the decryption transform xor of libs/ody.js is an involution: for
every string of UTF-16 code units (each below 2^16) and the fixed key
KCQZBX, applying xor twice restores the input exactly, because each output
unit is the input unit XORed with the key unit at the same index modulo the
key length. -/
theorem claim_C10_xor_involution (e : List Nat) (h : ∀ c ∈ e, c < 65536) :
    Ody.xor (Ody.xor e) = e :=
  Ody.xorFrom_xorFrom 0 e h

/-- C10 witness: the involution at the concrete code-unit list [72, 105, 33]. -/
theorem claim_C10_witness :
    (∀ c ∈ [72, 105, 33], c < 65536) ∧ Ody.xor (Ody.xor [72, 105, 33]) = [72, 105, 33] :=
  ⟨by decide, claim_C10_xor_involution [72, 105, 33] (by decide)⟩

/-- C3 counterexample: with two consecutive 401-class failures followed by a
success, getService refreshes the cookies twice - not exactly once - issues
three requests - not exactly two - recurses past depth two, changes the
method, filters and decrypt arguments of the retry (the filters array lands
in the method position), and still returns undefined instead of surfacing the
retried value, contradicting the claim at this concrete input. -/
theorem claim_C3_counterexample :
    Ody.getService "u" (.str "post") [.str "f"] true
        [.thrown (some 401), .thrown (some 401), .value (.num 1)]
      = ⟨.undef,
          [⟨"u", .str "post", [.str "f"], true⟩,
           ⟨"u", .arr [.str "f"], [], false⟩,
           ⟨"u", .arr [], [], false⟩], 2⟩ := rfl

/-- C3 amended: on each 401-class thrown failure getService calls
refreshCookies once and recursively re-invokes itself as
getService(url, filters) - the previous filters arrive in the method
position, filters and decrypt revert to their defaults - and discards the
recursive result; with k consecutive 401 failures it performs exactly k
refreshes and k + 1 requests, recursing unboundedly in k, and the caller
receives undefined whenever the first attempt threw (even if a retry
succeeded). -/
theorem claim_C3_amended_unbounded_retry (k : Nat) (u : String) (m : Ody.MethodArg)
    (fs : List JsVal) (d : Bool) (v : JsVal) :
    Ody.getService u m fs d (List.replicate k (.thrown (some 401)) ++ [.value v])
      = ⟨if k = 0 then v else .undef, Ody.retryChain u m fs d k, k⟩ :=
  Ody.getService_retry_chain k u m fs d v



/-- C5: the resume filter collectDownloadTasks returns exactly the subset of
gallery-image tasks whose destination file does not already exist, in the
original relative order - it equals the unfiltered task list filtered by
non-existence of the filepath - and on the concrete instance with files
already present for A and C out of A, B, C it returns exactly the B task. -/
theorem claim_C5_resume_filter (fexists : String → Bool) (ships : List DlMedia.ShipRec)
    (baseUrl mediaDir : String) :
    DlMedia.collectDownloadTasks fexists ships baseUrl mediaDir
      = (DlMedia.collectDownloadTasks (fun _ => false) ships baseUrl mediaDir).filter
          (fun t => !fexists t.filepath)
    ∧ DlMedia.collectDownloadTasks witC5Exists [witC5Ship] "B" "M"
        = [⟨"B/img/B.jpg", "M/1/B.jpg", 1, "S", "B.jpg"⟩] :=
  ⟨DlMedia.collect_eq_filter fexists ships baseUrl mediaDir, by decide⟩



/-- C6: running the download pipeline a second time against an unchanged
listing and an unchanged destination directory - every file that existed
still exists, and every task of the first run now has its destination file -
collects zero tasks, so main returns before downloadInBatches and performs
zero network requests and zero downloads. -/
theorem claim_C6_second_run_idempotent (dlenv : DlMedia.DownloadTask → DlMedia.DlOutcome)
    (fex1 fex2 : String → Bool) (ships : List DlMedia.ShipRec) (baseUrl mediaDir : String)
    (c : Nat)
    (hmono : ∀ p, fex1 p = true → fex2 p = true)
    (hdone : ∀ t ∈ DlMedia.collectDownloadTasks fex1 ships baseUrl mediaDir,
      fex2 t.filepath = true) :
    DlMedia.collectDownloadTasks fex2 ships baseUrl mediaDir = []
    ∧ DlMedia.downloadMain dlenv fex2 ships baseUrl mediaDir c = ⟨0, 0, 0⟩ := by
  have hnil : DlMedia.collectDownloadTasks fex2 ships baseUrl mediaDir = [] := by
    rw [DlMedia.collect_eq_filter]
    apply List.filter_eq_nil_iff.mpr
    intro t ht
    have h2 : fex2 t.filepath = true := by
      by_cases h1 : fex1 t.filepath = true
      · exact hmono _ h1
      · apply hdone
        rw [DlMedia.collect_eq_filter fex1]
        exact List.mem_filter.mpr ⟨ht, by simp [h1]⟩
    simp [h2]
  refine ⟨hnil, ?_⟩
  unfold DlMedia.downloadMain
  rw [hnil]

/-- C6 witness: the second run over one already-downloaded image collects
nothing and reports zero downloads and zero requests. -/
theorem claim_C6_witness :
    DlMedia.collectDownloadTasks witC6Exists [witC6Ship] "B" "M" = []
    ∧ DlMedia.downloadMain (fun _ => .ok) witC6Exists [witC6Ship] "B" "M" 10 = ⟨0, 0, 0⟩ :=
  claim_C6_second_run_idempotent (fun _ => .ok) (fun _ => false) witC6Exists [witC6Ship]
    "B" "M" 10 (fun _ h => Bool.noConfusion h) (by decide)


/-- C8 counterexample: in the earlier downloader revision
(src/unnamed/part_000) the load step has no per-line guard, so a file whose
second line is malformed makes the whole load throw - the malformed line
aborts loading, contradicting the claim; and even in loadShipsData of
download-media.js the parseable line null is silently dropped by the
ship !== null filter, contradicting the claim that every parseable line is
kept. -/
theorem claim_C8_counterexample :
    PartZero.processShipsParseStep witC8Parse "\x7b\x7d\noops" = .error "Unexpected token"
    ∧ DlMedia.loadShipsData witC8Parse "\x7b\x7d\nnull" = [.obj .nil] :=
  ⟨rfl, rfl⟩

/-- C8 amended: in loadShipsData of download-media.js, a line whose parse
throws is skipped (with a warning) and excluded, and the remaining lines are
kept in their original order, except that a line parsing to the JSON value
null is also silently dropped by the ship !== null filter; loading never
throws there.  In the earlier revision src/unnamed/part_000 the load step
maps JSON.parse over the lines unguarded, so the first malformed line aborts
the load and the run. -/
theorem claim_C8_amended_loader (jsonParse : String → Except String JsVal) (content : String) :
    DlMedia.loadShipsData jsonParse content
      = (jsSplit '\n' (jsTrim content)).filterMap fun line =>
          match jsonParse line with
          | .ok v => if DlMedia.jsIsNull v then none else some v
          | .error _ => none := by
  unfold DlMedia.loadShipsData
  exact DlMedia.loadLines_spec jsonParse _


/-- C2 evidence: the download worker does convert failures into failed
results, but on the fetch path a failed network attempt is swallowed inside
getService, which returns undefined; processShip then treats the item as a
success - it appends a record with no data field, bumps processed (not
failed) and returns success = true - contradicting the claim that every
per-item failure yields success = false and bumps the failed counter. -/
theorem claim_C2_failure_conversion :
    (GetShips.processShip witC2Env "B" ⟨7⟩ ⟨[], 0, 0⟩).1 = ⟨true, 7, none⟩
    ∧ (GetShips.processShip witC2Env "B" ⟨7⟩ ⟨[], 0, 0⟩).2
        = ⟨["\x7b\"timestamp\":\"T\",\"source\":\"ody\",\"type\":\"ship\",\"shipId\":7\x7d\n"],
            1, 0⟩
    ∧ DlMedia.downloadImage (.netError "socket hang up") "u" "p"
        = ⟨false, "u", "p", some "socket hang up"⟩
    ∧ DlMedia.downloadImage (.httpError 404 "Not Found") "u" "p"
        = ⟨false, "u", "p", some "HTTP 404: Not Found"⟩ :=
  ⟨rfl, rfl, rfl, rfl⟩

/-- C9 counterexample: for the falsy ship id 0 the conditional spread
...(shipId && \x7bshipId\x7d) contributes nothing, so the record of a
successfully fetched ship with id 0 has no shipId field at all,
contradicting the claim that the line contains shipId for every id in the
master list including 0. -/
theorem claim_C9_counterexample :
    objLookup (GetShips.jsonlRecordObj "T" "ship" (.obj .nil) (.num 0)) "shipId" = none
    ∧ GetShips.createJsonlRecord "T" "ship" (.obj .nil) (.num 0)
        = "\x7b\"timestamp\":\"T\",\"source\":\"ody\",\"type\":\"ship\",\"data\":\x7b\x7d\x7d\n" :=
  ⟨rfl, rfl⟩

/-- C9 amended: for every successful item whose id is truthy (nonzero), the
worker appends exactly one line - the serialized record plus a newline, with
no other newline in it - and the record object carries type = "ship" and
shipId equal to the item id; for the falsy id 0 the shipId field is omitted
(see the counterexample). -/
theorem claim_C9_amended_one_record_line (env : GetShips.ShipEnv) (baseUrl : String)
    (ship : GetShips.Ship) (st : GetShips.FetchState)
    (hcf : env.cookieFailure = none) (haf : env.appendFailure = none) (hid : ship.id ≠ 0) :
    (GetShips.processShip env baseUrl ship st).2.file
        = st.file ++ [GetShips.shipLine env baseUrl ship]
    ∧ GetShips.shipLine env baseUrl ship
        = stringifyVal (.obj (GetShips.jsonlRecordObj env.ts "ship"
            (GetShips.fetchShipDetails baseUrl ship.id env.attempts).result (.num ship.id)))
          ++ "\n"
    ∧ (GetShips.shipLine env baseUrl ship).data.count '\n' = 1
    ∧ objLookup (GetShips.jsonlRecordObj env.ts "ship"
          (GetShips.fetchShipDetails baseUrl ship.id env.attempts).result (.num ship.id))
        "type" = some (.str "ship")
    ∧ objLookup (GetShips.jsonlRecordObj env.ts "ship"
          (GetShips.fetchShipDetails baseUrl ship.id env.attempts).result (.num ship.id))
        "shipId" = some (.num ship.id) := by
  have ht : jsTruthy (.num ship.id) = true := by
    simp only [jsTruthy, bne_iff_ne, ne_eq]
    exact hid
  refine ⟨?_, rfl, GetShips.createJsonlRecord_one_nl _ _ _ _,
    GetShips.jsonlRecordObj_lookup_type _ _ _ _,
    GetShips.jsonlRecordObj_lookup_shipId_truthy _ _ _ _ ht⟩
  rw [GetShips.processShip_file, GetShips.shipSucceeds_true hcf haf]
  simp


/-- C9 witness: the amended statement at ship id 5 from a nonempty file and
nonzero counters. -/
theorem claim_C9_witness :
    (GetShips.processShip witC9Env "B" ⟨5⟩ ⟨["X"], 4, 2⟩).2.file
        = ["X"] ++ [GetShips.shipLine witC9Env "B" ⟨5⟩]
    ∧ GetShips.shipLine witC9Env "B" ⟨5⟩
        = stringifyVal (.obj (GetShips.jsonlRecordObj witC9Env.ts "ship"
            (GetShips.fetchShipDetails "B" (5 : Int) witC9Env.attempts).result (.num 5)))
          ++ "\n"
    ∧ (GetShips.shipLine witC9Env "B" ⟨5⟩).data.count '\n' = 1
    ∧ objLookup (GetShips.jsonlRecordObj witC9Env.ts "ship"
          (GetShips.fetchShipDetails "B" (5 : Int) witC9Env.attempts).result (.num 5))
        "type" = some (.str "ship")
    ∧ objLookup (GetShips.jsonlRecordObj witC9Env.ts "ship"
          (GetShips.fetchShipDetails "B" (5 : Int) witC9Env.attempts).result (.num 5))
        "shipId" = some (.num 5) :=
  claim_C9_amended_one_record_line witC9Env "B" ⟨5⟩ ⟨["X"], 4, 2⟩ rfl rfl (by decide)

/-- C1: for every work list, every concurrency limit C > 0 and every
behaviour of the world, each pipeline executor invokes its item worker
exactly once per item in list order - the result list is exactly the map of
the worker over the items, so there are exactly N results with no omission
and no duplication - and the final counters always satisfy
processed/completed + failed = N, however many items fail. -/
theorem claim_C1_executor_exactly_once
    (env : GetShips.Ship → GetShips.ShipEnv) (baseUrl : String) (ships : List GetShips.Ship)
    (file0 : List String) (dlenv : DlMedia.DownloadTask → DlMedia.DlOutcome)
    (tasks : List DlMedia.DownloadTask) (c : Nat) (hc : 0 < c) :
    ((GetShips.processShipsInBatches env baseUrl ships c file0).1
        = ships.map fun s => GetShips.shipWorkerResult (env s) baseUrl s)
    ∧ (GetShips.processShipsInBatches env baseUrl ships c file0).2.processed
        + (GetShips.processShipsInBatches env baseUrl ships c file0).2.failed = ships.length
    ∧ ((DlMedia.downloadInBatches dlenv tasks c).1
        = tasks.map fun t => DlMedia.downloadImage (dlenv t) t.url t.filepath)
    ∧ (DlMedia.downloadInBatches dlenv tasks c).2.completed
        + (DlMedia.downloadInBatches dlenv tasks c).2.failed = tasks.length :=
  ⟨GetShips.processShipsInBatches_results env baseUrl ships c file0 hc,
   GetShips.processShipsInBatches_counters env baseUrl ships c file0 hc,
   DlMedia.downloadInBatches_results dlenv tasks c hc,
   DlMedia.downloadInBatches_counters dlenv tasks c hc⟩





/-- C1 witness: the executor totality statement at three ships (one failing)
with window size 2, and two download tasks (one failing). -/
theorem claim_C1_witness :
    0 < 2
    ∧ (((GetShips.processShipsInBatches witC1Env "B" witC1Ships 2 []).1
        = witC1Ships.map fun s => GetShips.shipWorkerResult (witC1Env s) "B" s)
    ∧ (GetShips.processShipsInBatches witC1Env "B" witC1Ships 2 []).2.processed
        + (GetShips.processShipsInBatches witC1Env "B" witC1Ships 2 []).2.failed
        = witC1Ships.length
    ∧ ((DlMedia.downloadInBatches witC1Dlenv witC1Tasks 2).1
        = witC1Tasks.map fun t => DlMedia.downloadImage (witC1Dlenv t) t.url t.filepath)
    ∧ (DlMedia.downloadInBatches witC1Dlenv witC1Tasks 2).2.completed
        + (DlMedia.downloadInBatches witC1Dlenv witC1Tasks 2).2.failed
        = witC1Tasks.length) :=
  ⟨by decide,
   claim_C1_executor_exactly_once witC1Env "B" witC1Ships [] witC1Dlenv witC1Tasks 2
     (by decide)⟩

/-- C4: with concurrency limit C > 0 the executor cuts the N work items into
ceil(N / C) consecutive non-overlapping windows of size at most C whose
concatenation in window order is the original list; the run processes those
windows strictly in order (the result list is the window-order concatenation
of the per-window result lists); and on an empty work list both executors do
no work and return zeroed statistics. -/
theorem claim_C4_window_partition
    (env : GetShips.Ship → GetShips.ShipEnv) (baseUrl : String) (ships : List GetShips.Ship)
    (file0 : List String) (dlenv : DlMedia.DownloadTask → DlMedia.DlOutcome) (c : Nat)
    (hc : 0 < c) :
    (chunks c ships).length = (ships.length + c - 1) / c
    ∧ (∀ w ∈ chunks c ships, w.length ≤ c)
    ∧ (chunks c ships).flatten = ships
    ∧ ((GetShips.processShipsInBatches env baseUrl ships c file0).1
        = ((chunks c ships).map fun w =>
            w.map fun s => GetShips.shipWorkerResult (env s) baseUrl s).flatten)
    ∧ GetShips.processShipsInBatches env baseUrl [] c file0 = ([], ⟨file0, 0, 0⟩)
    ∧ DlMedia.downloadInBatches dlenv [] c = ([], ⟨0, 0, 0⟩) := by
  refine ⟨chunks_count c hc ships, chunks_sizes c hc ships, chunks_flatten c hc ships,
    GetShips.runShipBatches_results env baseUrl (chunks c ships) ⟨file0, 0, 0⟩, ?_, ?_⟩
  · unfold GetShips.processShipsInBatches
    rw [chunks_nil]
    rfl
  · unfold DlMedia.downloadInBatches
    rw [chunks_nil]
    rfl



/-- C4 witness: the window partition statement at five ships with window
size 2 (three windows of sizes 2, 2, 1). -/
theorem claim_C4_witness :
    0 < 2
    ∧ ((chunks 2 witC4Ships).length = (witC4Ships.length + 2 - 1) / 2
    ∧ (∀ w ∈ chunks 2 witC4Ships, w.length ≤ 2)
    ∧ (chunks 2 witC4Ships).flatten = witC4Ships
    ∧ ((GetShips.processShipsInBatches witC4Env "B" witC4Ships 2 ["OLD"]).1
        = ((chunks 2 witC4Ships).map fun w =>
            w.map fun s => GetShips.shipWorkerResult (witC4Env s) "B" s).flatten)
    ∧ GetShips.processShipsInBatches witC4Env "B" [] 2 ["OLD"] = ([], ⟨["OLD"], 0, 0⟩)
    ∧ DlMedia.downloadInBatches (fun _ => .ok) [] 2 = ([], ⟨0, 0, 0⟩)) :=
  ⟨by decide,
   claim_C4_window_partition witC4Env "B" witC4Ships ["OLD"] (fun _ => .ok) 2 (by decide)⟩

/-- C7: a fetch run first discards the whole previous content of the ships
record file (deleting the file if it exists) and only then runs the batch
executor; thereafter the file is only appended to, one record per item that
takes the success path, so after the run the file holds exactly the records
this run produced, whatever it held before. -/
theorem claim_C7_truncate_then_append
    (env : GetShips.Ship → GetShips.ShipEnv) (baseUrl : String) (ships : List GetShips.Ship)
    (c : Nat) (oldFile : List String) (hc : 0 < c) :
    (GetShips.fetchMain env baseUrl ships c oldFile).2.file
      = GetShips.successLines env baseUrl ships
    ∧ ∀ st : GetShips.FetchState,
        (GetShips.runShipBatches env baseUrl (chunks c ships) st).2.file
          = st.file ++ GetShips.successLines env baseUrl ships := by
  constructor
  · show (GetShips.processShipsInBatches env baseUrl ships c []).2.file = _
    rw [GetShips.processShipsInBatches_file env baseUrl ships c [] hc]
    simp
  · intro st
    rw [GetShips.runShipBatches_file env baseUrl (chunks c ships) st, chunks_flatten c hc]


/-- C7 witness: starting from a stale one-line file, the run over two ships
with window size 1 leaves exactly the successful record of ship 1. -/
theorem claim_C7_witness :
    (GetShips.fetchMain witC7Env "B" [⟨1⟩, ⟨2⟩] 1 ["STALE"]).2.file
      = GetShips.successLines witC7Env "B" [⟨1⟩, ⟨2⟩]
    ∧ ∀ st : GetShips.FetchState,
        (GetShips.runShipBatches witC7Env "B" (chunks 1 [⟨1⟩, ⟨2⟩]) st).2.file
          = st.file ++ GetShips.successLines witC7Env "B" [⟨1⟩, ⟨2⟩] :=
  claim_C7_truncate_then_append witC7Env "B" [⟨1⟩, ⟨2⟩] 1 ["STALE"] (by decide)
